import Mathlib

/-!
Verification of pystockwatch (UBC-MDS/pystockwatch).

Shallow embedding of `src/pystockwatch/pystockwatch.py` and proofs about it.

Modelling conventions:
* Prices are exact rationals (`ℚ`), idealizing the floating-point arithmetic of
  pandas; volumes are integers (`ℤ`), as in the data model.
* The market-data collaborator (`yfinance` / `pandas_datareader`) is an oracle:
  `info : TickerArg → Option ℚ` models `yf.Ticker(t).info["regularMarketPrice"]`
  (a network lookup returning `None` for unresolvable tickers), and
  `fetch` models `yf.download` / `pdr.get_data_yahoo` (a network download).
* Each embedded operation returns its result (`Except Err _`, where an `Err`
  value models a raised Python exception) paired with the trace of provider
  calls (`List Ev`) that happened before the function returned or raised.
* Python ticker arguments need not be strings (`profit_viz` type-checks them),
  so they are modelled by `TickerArg`: either a string or a non-string value.
-/

/-- A value passed as a ticker argument: a Python `str`, or any non-string
Python value (only its non-stringness matters to the code). -/
inductive TickerArg where
  | str (s : String)
  | nonstr
deriving DecidableEq

/-- Check modelling `type(x) == str` from `profit_viz`. -/
def TickerArg.isStr : TickerArg → Bool
  | .str _ => true
  | .nonstr => false

/-- The exceptions the module raises, named after the spec's error taxonomy.
`indexError` models the `IndexError` pandas raises when `.iloc[0, :]` is read
on an empty frame. -/
inductive Err where
  | invalidTicker
  | invalidDateFormat
  | invalidDateRange
  | invalidInputType
  | invalidClassification
  | indexError
deriving DecidableEq

/-- The validation errors of the spec's taxonomy (everything except the
provider-side `indexError` and the post-download `invalidClassification`). -/
def Err.isValidation : Err → Bool
  | .invalidTicker => true
  | .invalidDateFormat => true
  | .invalidDateRange => true
  | .invalidInputType => true
  | _ => false

/-- A network call to the market-data provider: the `.info` price lookup used
for ticker validation, or the historical-data download. -/
inductive Ev where
  | lookup (t : TickerArg)
  | download (t : TickerArg)
deriving DecidableEq

/-- Is this provider call a historical-data download? -/
def Ev.isDownload : Ev → Bool
  | .download _ => true
  | .lookup _ => false

/-- A calendar date `(year, month, day)`; `datetime.datetime` comparison on
dates is lexicographic on this triple. -/
abbrev YMD := ℕ × ℕ × ℕ

/-- Comparison `datetime.datetime(a) < datetime.datetime(b)`: lexicographic order. -/
def dateLt (a b : YMD) : Bool :=
  if a.1 < b.1 then true
  else if b.1 < a.1 then false
  else if a.2.1 < b.2.1 then true
  else if b.2.1 < a.2.1 then false
  else decide (a.2.2 < b.2.2)

/-- Model of the split on dashes performed by `strptime` when matching the
format `%Y-%m-%d`, on a list of characters. -/
def splitOnDash : List Char → List (List Char)
  | [] => [[]]
  | c :: cs =>
    let r := splitOnDash cs
    if c = '-' then [] :: r
    else
      match r with
      | [] => [[c]]
      | g :: gs => (c :: g) :: gs

/-- Value of a nonempty all-digit character group, `none` otherwise. -/
def digitsVal (cs : List Char) : Option ℕ :=
  if cs ≠ [] ∧ cs.all Char.isDigit then
    some (cs.foldl (fun n c => 10 * n + (c.toNat - 48)) 0)
  else none

/-- Gregorian leap year, as used by `datetime`. -/
def isLeap (y : ℕ) : Bool :=
  y % 4 == 0 && (!(y % 100 == 0) || y % 400 == 0)

/-- Length of month `m` in year `y`, as validated by `datetime.datetime`. -/
def daysInMonth (y m : ℕ) : ℕ :=
  if m = 2 then (if isLeap y then 29 else 28)
  else if m = 4 ∨ m = 6 ∨ m = 9 ∨ m = 11 then 30
  else 31

/-- Model of `datetime.datetime.strptime(s, "%Y-%m-%d")`: a 4-digit year, a 1-2 digit
month in 1..12, a 1-2 digit day valid for the month, nothing left over; the
`datetime` constructor additionally requires `year ≥ 1`. -/
def parseYMD (cs : List Char) : Option YMD :=
  match splitOnDash cs with
  | [ys, ms, ds] =>
    match digitsVal ys, digitsVal ms, digitsVal ds with
    | some y, some m, some d =>
      if ys.length = 4 ∧ 1 ≤ y ∧ ms.length ≤ 2 ∧ 1 ≤ m ∧ m ≤ 12 ∧
          ds.length ≤ 2 ∧ 1 ≤ d ∧ d ≤ daysInMonth y m
      then some (y, m, d) else none
    | _, _, _ => none
  | _ => none

/-- The tabular close-price data `percent_change` works on after dropping the
other columns: `nrows` trading days, `ncols` requested tickers, the date index
`dates`, and the close price `val row col`. -/
structure Frame where
  nrows : ℕ
  ncols : ℕ
  dates : ℕ → YMD
  val : ℕ → ℕ → ℚ

/-- One iteration of the rebasing loop:
`data.iloc[i,:] = (data.iloc[i,:] - data.iloc[0,:]) / data.iloc[0,:] * 100`,
an in-place whole-row update of the mutable table `v`. -/
def rebaseStep (v : ℕ → ℕ → ℚ) (i : ℕ) : ℕ → ℕ → ℚ :=
  Function.update v i (fun j => (v i j - v 0 j) / v 0 j * 100)

/-- Lines 80-89 of `percent_change`: run the in-place loop
`for i in range(1, len(data))`, then rebase row 0 by the same formula.
On an empty frame the final `data.iloc[0,:]` read raises `IndexError`,
modelled as `none`. -/
def rebaseAll (f : Frame) : Option Frame :=
  if f.nrows = 0 then none
  else
    let w := (List.range' 1 (f.nrows - 1)).foldl rebaseStep f.val
    some { f with val := rebaseStep w 0 }

/-- The `Volume_Change` label strings used by the code. `np.select` with
string choices and `default=np.nan` yields the string `"nan"` (numpy promotes
the mixed string/float choice list to a string dtype); the spec calls this
label `Undefined`. -/
def Undefined : String := "nan"

/-- The label for a day whose volume exceeds the previous day's. -/
def Increase : String := "Increase"

/-- The label for a day whose volume is below the previous day's. -/
def Decrease : String := "Decrease"

/-- Tail of the pandas first-difference column: each entry is current minus
previous volume. -/
def diffFrom (prev : ℤ) : List ℤ → List (Option ℤ)
  | [] => []
  | v :: rest => some (v - prev) :: diffFrom v rest

/-- Model of the pandas `diff` over the Volume column: `NaN` (here `none`) at
index 0, then first differences. -/
def vdiff : List ℤ → List (Option ℤ)
  | [] => []
  | v :: rest => none :: diffFrom v rest

/-- One entry of the `np.select` classification over the difference column
(conditions `dif > 0` and `dif < 0`, choices Increase and Decrease, default
the undefined label): comparisons with `NaN` (`none`) are false, so the first
row and equal-volume rows fall to the default. -/
def classify : Option ℤ → String
  | some d => if d > 0 then Increase else if d < 0 then Decrease else Undefined
  | none => Undefined

/-- The `Volume_Change` column computed by `volume_change`. -/
def volumeChangeLabels (vols : List ℤ) : List String :=
  (vdiff vols).map classify

/-- The post-hoc check loop of `volume_change`: every indicator must be one of
the three strings, else `ValueError("Incorrect Volume Change indicator")`. -/
def labelCheck (ls : List String) : Except Err Unit :=
  if ls.all (fun l => l == Decrease || l == Increase || l == Undefined)
  then .ok () else .error .invalidClassification

/-- Find by key: the value of the first row of `r` whose date equals `d`. -/
def lookupKey {α : Type} [DecidableEq α] (r : List (α × ℚ)) (d : α) : Option ℚ :=
  match r.find? (fun q => decide (q.1 = d)) with
  | some q => some q.2
  | none => none

/-- Model of `pd.merge(l, r, on="Date")`: the default inner join, for frames whose
dates are unique (the data model guarantees no duplicate dates). Each output
row carries the date and the two percent-change columns (renamed
`Profit Percent Stock` / `Profit Percent Benchmark` in the code). -/
def mergeInner {α : Type} [DecidableEq α] :
    List (α × ℚ) → List (α × ℚ) → List (α × ℚ × ℚ)
  | [], _ => []
  | p :: l, r =>
    match lookupKey r p.1 with
    | some q => (p.1, p.2, q) :: mergeInner l r
    | none => mergeInner l r

/-- View of a single-ticker percent-change frame after `reset_index()`: the
list of (Date, value-of-column-0) rows. -/
def frameSeries (f : Frame) : List (YMD × ℚ) :=
  (List.range f.nrows).map fun i => (f.dates i, f.val i 0)

/-- Model of `percent_change(stock_ticker, start_date, end_date)`: validate the ticker
via the provider lookup, parse both dates, reject an end date earlier than the
start date, then download and rebase. Returns the result or the raised error,
paired with the provider calls made. -/
def percent_change (info : TickerArg → Option ℚ)
    (fetch : TickerArg → YMD → YMD → Frame) (t : TickerArg) (sd ed : String) :
    Except Err Frame × List Ev :=
  match info t with
  | none => (.error .invalidTicker, [.lookup t])
  | some _ =>
    match parseYMD sd.data with
    | none => (.error .invalidDateFormat, [.lookup t])
    | some s =>
      match parseYMD ed.data with
      | none => (.error .invalidDateFormat, [.lookup t])
      | some e =>
        if dateLt e s then (.error .invalidDateRange, [.lookup t])
        else
          match rebaseAll (fetch t s e) with
          | none => (.error .indexError, [.lookup t, .download t])
          | some res => (.ok res, [.lookup t, .download t])

/-- Model of `volume_change(stock_ticker, start_date, end_date)`: validate ticker and
date formats (no range check in this function), download the volume column,
label the first differences, run the post-hoc label check, and return the
(Volume, Volume_Change) rows. -/
def volume_change (info : TickerArg → Option ℚ)
    (fetchVol : TickerArg → YMD → YMD → List ℤ) (t : TickerArg)
    (sd ed : String) : Except Err (List (ℤ × String)) × List Ev :=
  match info t with
  | none => (.error .invalidTicker, [.lookup t])
  | some _ =>
    match parseYMD sd.data with
    | none => (.error .invalidDateFormat, [.lookup t])
    | some s =>
      match parseYMD ed.data with
      | none => (.error .invalidDateFormat, [.lookup t])
      | some e =>
        let vols := fetchVol t s e
        let labels := volumeChangeLabels vols
        match labelCheck labels with
        | .error err => (.error err, [.lookup t, .download t])
        | .ok _ => (.ok (vols.zip labels), [.lookup t, .download t])

/-- Model of `profit_viz(stock_ticker, start_date, end_date, benchmark_ticker)`:
validate (stock lookup, stock type, benchmark lookup, benchmark type, date
formats, date range — in the code's order), compute both percent-change
series, and inner-join them on `Date`. -/
def profit_viz (info : TickerArg → Option ℚ)
    (fetch : TickerArg → YMD → YMD → Frame) (stock : TickerArg)
    (sd ed : String) (bench : TickerArg) :
    Except Err (List (YMD × ℚ × ℚ)) × List Ev :=
  match info stock with
  | none => (.error .invalidTicker, [.lookup stock])
  | some _ =>
    if stock.isStr = false then (.error .invalidInputType, [.lookup stock])
    else
      match info bench with
      | none => (.error .invalidTicker, [.lookup stock, .lookup bench])
      | some _ =>
        if bench.isStr = false then
          (.error .invalidInputType, [.lookup stock, .lookup bench])
        else
          match parseYMD sd.data with
          | none => (.error .invalidDateFormat, [.lookup stock, .lookup bench])
          | some s =>
            match parseYMD ed.data with
            | none =>
              (.error .invalidDateFormat, [.lookup stock, .lookup bench])
            | some e =>
              if dateLt e s then
                (.error .invalidDateRange, [.lookup stock, .lookup bench])
              else
                let rs := percent_change info fetch stock sd ed
                match rs.1 with
                | .error err =>
                  (.error err, [.lookup stock, .lookup bench] ++ rs.2)
                | .ok sp =>
                  let rb := percent_change info fetch bench sd ed
                  match rb.1 with
                  | .error err =>
                    (.error err, [.lookup stock, .lookup bench] ++ rs.2 ++ rb.2)
                  | .ok bp =>
                    (.ok (mergeInner (frameSeries sp) (frameSeries bp)),
                     [.lookup stock, .lookup bench] ++ rs.2 ++ rb.2)

/-- A provider oracle under which every ticker resolves (price 1). -/
def infoSome : TickerArg → Option ℚ := fun _ => some 1

/-- A provider oracle under which no ticker resolves. -/
def infoNone : TickerArg → Option ℚ := fun _ => none

/-- A three-trading-day, one-column close-price table: 10, 15, 5. -/
def testFrame : Frame where
  nrows := 3
  ncols := 1
  dates := fun i => (2020, 1, i + 1)
  val := fun i _ => if i = 0 then 10 else if i = 1 then 15 else 5

/-- A download oracle returning `testFrame` for every request. -/
def fetchTest : TickerArg → YMD → YMD → Frame := fun _ _ _ => testFrame

/-- A download oracle returning an empty table (no trading days in range). -/
def fetchEmpty : TickerArg → YMD → YMD → Frame :=
  fun _ _ _ => { nrows := 0, ncols := 1, dates := fun _ => (0, 0, 0), val := fun _ _ => 0 }

/-- The frame `percent_change` produces from `testFrame`. -/
def testRebased : Frame := (rebaseAll testFrame).getD testFrame

/-- After the in-place loop has processed indices `1, ..., k`, rows in that
range hold the rebased values computed from the ORIGINAL table (row 0 is never
written by the loop, so each iteration reads the original baseline), and all
other rows are untouched. -/
theorem rebaseLoop_apply (k : ℕ) (v : ℕ → ℕ → ℚ) (j : ℕ) :
    (List.range' 1 k).foldl rebaseStep v j =
      if 1 ≤ j ∧ j < 1 + k then fun col => (v j col - v 0 col) / v 0 col * 100
      else v j := by
  induction k generalizing j with
  | zero => rw [show List.range' 1 0 = [] from rfl, List.foldl_nil, if_neg (by omega)]
  | succ k ih =>
    rw [List.range'_concat, List.foldl_append, List.foldl_cons, List.foldl_nil]
    have h0 : (List.range' 1 k).foldl rebaseStep v 0 = v 0 := by
      rw [ih]; exact if_neg (by omega)
    have hk : (List.range' 1 k).foldl rebaseStep v (1 + 1 * k) = v (1 + 1 * k) := by
      rw [ih]; exact if_neg (by omega)
    by_cases hj : j = 1 + 1 * k
    · subst hj
      simp only [rebaseStep]
      rw [Function.update_same, h0, hk, if_pos ⟨by omega, by omega⟩]
    · simp only [rebaseStep]
      rw [Function.update_noteq hj, ih]
      by_cases hc : 1 ≤ j ∧ j < 1 + k
      · rw [if_pos hc, if_pos ⟨hc.1, by omega⟩]
      · rw [if_neg hc, if_neg (by omega)]

/-- Destructuring a successful `rebaseAll`. -/
theorem rebaseAll_val (f res : Frame) (h : rebaseAll f = some res) :
    res.val = rebaseStep ((List.range' 1 (f.nrows - 1)).foldl rebaseStep f.val) 0 ∧
      res.nrows = f.nrows := by
  unfold rebaseAll at h
  by_cases hn : f.nrows = 0
  · rw [if_pos hn] at h; cases h
  · rw [if_neg hn] at h
    obtain rfl := (Option.some.inj h).symm
    exact ⟨rfl, rfl⟩

/-- Rows `i > 0` of the rebased table hold the percent-change formula applied
to the original table. -/
theorem rebaseAll_row_pos (f res : Frame) (h : rebaseAll f = some res) (i : ℕ)
    (hi : 0 < i) (hin : i < f.nrows) (j : ℕ) :
    res.val i j = (f.val i j - f.val 0 j) / f.val 0 j * 100 := by
  obtain ⟨hv, -⟩ := rebaseAll_val f res h
  rw [hv]
  simp only [rebaseStep]
  rw [Function.update_noteq (by omega : i ≠ 0), rebaseLoop_apply,
    if_pos ⟨by omega, by omega⟩]

/-- Row 0 of the rebased table is exactly 0 in every column. -/
theorem rebaseAll_row_zero (f res : Frame) (h : rebaseAll f = some res) (j : ℕ) :
    res.val 0 j = 0 := by
  obtain ⟨hv, -⟩ := rebaseAll_val f res h
  rw [hv]
  simp only [rebaseStep, Function.update_same]
  simp

/-- A successful `percent_change` run passed every validation and rebased the
fetched table. -/
theorem percent_change_ok_elim (info : TickerArg → Option ℚ)
    (fetch : TickerArg → YMD → YMD → Frame) (t : TickerArg) (sd ed : String)
    (res : Frame) (h : (percent_change info fetch t sd ed).1 = .ok res) :
    ∃ s e, parseYMD sd.data = some s ∧ parseYMD ed.data = some e ∧
      dateLt e s = false ∧ rebaseAll (fetch t s e) = some res := by
  unfold percent_change at h
  cases hI : info t with
  | none => simp [hI] at h
  | some p =>
    simp only [hI] at h
    cases hS : parseYMD sd.data with
    | none => simp [hS] at h
    | some s =>
      simp only [hS] at h
      cases hE : parseYMD ed.data with
      | none => simp [hE] at h
      | some e =>
        simp only [hE] at h
        cases hLt : dateLt e s with
        | true => simp [hLt] at h
        | false =>
          simp only [hLt, Bool.false_eq_true, if_false] at h
          cases hR : rebaseAll (fetch t s e) with
          | none => simp [hR] at h
          | some r =>
            simp only [hR, Except.ok.injEq] at h
            exact ⟨s, e, rfl, rfl, hLt, by rw [hR, h]⟩

/-- C1: for every request whose dates parse, every row `i > 0` and every
requested column `j` of the series returned by `percent_change` equals
`(Close[i] - Close[0]) / Close[0] * 100` computed on the fetched close-price
table, for each ticker's column independently (exact rational arithmetic
models the floating-point computation). -/
theorem percent_change_entry_formula (info : TickerArg → Option ℚ)
    (fetch : TickerArg → YMD → YMD → Frame) (t : TickerArg) (sd ed : String)
    (s e : YMD) (res : Frame)
    (hs : parseYMD sd.data = some s) (he : parseYMD ed.data = some e)
    (h : (percent_change info fetch t sd ed).1 = .ok res)
    (i j : ℕ) (hi : 0 < i) (hin : i < (fetch t s e).nrows)
    (hj : j < (fetch t s e).ncols) :
    res.val i j =
      ((fetch t s e).val i j - (fetch t s e).val 0 j) / (fetch t s e).val 0 j
        * 100 := by
  obtain ⟨s', e', hs', he', hlt', hr'⟩ :=
    percent_change_ok_elim info fetch t sd ed res h
  obtain rfl : s' = s := by rw [hs'] at hs; exact Option.some.inj hs
  obtain rfl : e' = e := by rw [he'] at he; exact Option.some.inj he
  exact rebaseAll_row_pos _ res hr' i hi hin j

/-- C1 witness: concrete run over the close prices 10, 15, 5. -/
theorem percent_change_entry_formula_witness :
    parseYMD ("2020-01-01" : String).data = some (2020, 1, 1) ∧
    parseYMD ("2020-01-03" : String).data = some (2020, 1, 3) ∧
    (percent_change infoSome fetchTest (.str "AAPL") "2020-01-01" "2020-01-03").1
      = .ok testRebased ∧
    testRebased.val 1 0 =
      ((fetchTest (.str "AAPL") (2020, 1, 1) (2020, 1, 3)).val 1 0
          - (fetchTest (.str "AAPL") (2020, 1, 1) (2020, 1, 3)).val 0 0)
        / (fetchTest (.str "AAPL") (2020, 1, 1) (2020, 1, 3)).val 0 0 * 100 :=
  ⟨by decide, by decide, rfl,
    percent_change_entry_formula infoSome fetchTest (.str "AAPL") "2020-01-01"
      "2020-01-03" (2020, 1, 1) (2020, 1, 3) testRebased (by decide) (by decide)
      rfl 1 0 (by decide) (by decide) (by decide)⟩

/-- C5: entry 0 of the series returned by `percent_change` is exactly 0 for
every column, with no assumption on the value of `Close[0]` (row 0 is rebased
through the same formula, whose numerator vanishes; exact rational arithmetic
models the floating-point computation). -/
theorem percent_change_row0_exact_zero (info : TickerArg → Option ℚ)
    (fetch : TickerArg → YMD → YMD → Frame) (t : TickerArg) (sd ed : String)
    (res : Frame) (h : (percent_change info fetch t sd ed).1 = .ok res)
    (j : ℕ) : res.val 0 j = 0 := by
  obtain ⟨s, e, -, -, -, hr⟩ := percent_change_ok_elim info fetch t sd ed res h
  exact rebaseAll_row_zero _ res hr j

/-- C5 witness: concrete run over the close prices 10, 15, 5. -/
theorem percent_change_row0_exact_zero_witness :
    (percent_change infoSome fetchTest (.str "AAPL") "2020-01-01" "2020-01-03").1
      = .ok testRebased ∧ testRebased.val 0 0 = 0 :=
  ⟨rfl, percent_change_row0_exact_zero infoSome fetchTest (.str "AAPL")
    "2020-01-01" "2020-01-03" testRebased rfl 0⟩

/-- C10: when every validation passes but the fetched table is empty (no
trading days in range), `percent_change` raises (the row-0 rebase indexes an
empty table) instead of returning an empty series. -/
theorem percent_change_empty_fetch_fails (info : TickerArg → Option ℚ)
    (fetch : TickerArg → YMD → YMD → Frame) (t : TickerArg) (sd ed : String)
    (p : ℚ) (s e : YMD) (ht : info t = some p)
    (hs : parseYMD sd.data = some s) (he : parseYMD ed.data = some e)
    (hlt : dateLt e s = false) (hempty : (fetch t s e).nrows = 0) :
    (percent_change info fetch t sd ed).1 = .error .indexError := by
  have hnone : rebaseAll (fetch t s e) = none := by simp [rebaseAll, hempty]
  simp [percent_change, ht, hs, he, hlt, hnone]

/-- C10 witness: a fetch with no trading days makes the call fail. -/
theorem percent_change_empty_fetch_fails_witness :
    (fetchEmpty (.str "AAPL") (2020, 1, 1) (2020, 1, 2)).nrows = 0 ∧
    (percent_change infoSome fetchEmpty (.str "AAPL") "2020-01-01" "2020-01-02").1
      = .error .indexError :=
  ⟨rfl, percent_change_empty_fetch_fails infoSome fetchEmpty (.str "AAPL")
    "2020-01-01" "2020-01-02" 1 (2020, 1, 1) (2020, 1, 2) rfl (by decide)
    (by decide) (by decide) rfl⟩

/-- Length of the tail of the difference column. -/
theorem diffFrom_length (l : List ℤ) (prev : ℤ) :
    (diffFrom prev l).length = l.length := by
  induction l generalizing prev with
  | nil => rfl
  | cons v rest ih => simp [diffFrom, ih]

/-- Length of the difference column. -/
theorem vdiff_length (vols : List ℤ) : (vdiff vols).length = vols.length := by
  cases vols with
  | nil => rfl
  | cons v rest => simp [vdiff, diffFrom_length]

/-- Entries of the tail of the difference column. -/
theorem diffFrom_getD (l : List ℤ) (prev : ℤ) (i : ℕ) (hi : i < l.length) :
    (diffFrom prev l).getD i none =
      some (l.getD i 0 - (prev :: l).getD i 0) := by
  induction l generalizing prev i with
  | nil => simp at hi
  | cons v rest ih =>
    cases i with
    | zero => simp [diffFrom]
    | succ k =>
      simp only [diffFrom, List.getD_cons_succ]
      rw [ih v k (by simpa using hi)]

/-- Entry 0 of the difference column does not exist (`NaN`). -/
theorem vdiff_getD_zero (vols : List ℤ) (h : vols ≠ []) :
    (vdiff vols).getD 0 none = none := by
  cases vols with
  | nil => exact absurd rfl h
  | cons v rest => rfl

/-- Entries `i > 0` of the difference column are current minus previous
volume. -/
theorem vdiff_getD_pos (vols : List ℤ) (i : ℕ) (h0 : 0 < i)
    (hi : i < vols.length) :
    (vdiff vols).getD i none =
      some (vols.getD i 0 - vols.getD (i - 1) 0) := by
  cases vols with
  | nil => simp at hi
  | cons v rest =>
    cases i with
    | zero => omega
    | succ k =>
      simp only [vdiff, List.getD_cons_succ]
      rw [diffFrom_getD rest v k (by simpa using hi)]
      cases k with
      | zero => simp
      | succ k2 => simp

/-- Mapping `classify` commutes with indexing. -/
theorem getD_map_classify (l : List (Option ℤ)) (i : ℕ) (hi : i < l.length) :
    (l.map classify).getD i "" = classify (l.getD i none) := by
  induction l generalizing i with
  | nil => simp at hi
  | cons x rest ih =>
    cases i with
    | zero => rfl
    | succ k => simpa using ih k (by simpa using hi)

/-- C2: the `Volume_Change` column computed by `volume_change` carries the
undefined label (the string the code writes for `np.nan`) at index 0, and at
each later index the Increase label exactly when the volume rose, the
Decrease label exactly when it fell, and the undefined label when it was
unchanged. -/
theorem volume_change_label_rule (vols : List ℤ) (hne : vols ≠ []) :
    (volumeChangeLabels vols).getD 0 "" = Undefined ∧
    ∀ i, 0 < i → i < vols.length →
      ((volumeChangeLabels vols).getD i "" = Increase ↔
        vols.getD (i - 1) 0 < vols.getD i 0) ∧
      ((volumeChangeLabels vols).getD i "" = Decrease ↔
        vols.getD i 0 < vols.getD (i - 1) 0) ∧
      (vols.getD i 0 = vols.getD (i - 1) 0 →
        (volumeChangeLabels vols).getD i "" = Undefined) := by
  constructor
  · unfold volumeChangeLabels
    rw [getD_map_classify _ 0 (by rw [vdiff_length]; exact List.length_pos.2 hne),
      vdiff_getD_zero vols hne]
    rfl
  · intro i hi hlen
    have hd : (volumeChangeLabels vols).getD i "" =
        classify (some (vols.getD i 0 - vols.getD (i - 1) 0)) := by
      unfold volumeChangeLabels
      rw [getD_map_classify _ i (by rw [vdiff_length]; exact hlen),
        vdiff_getD_pos vols i hi hlen]
    rw [hd]
    simp only [classify]
    refine ⟨?_, ?_, ?_⟩
    · by_cases hgt : (0:ℤ) < vols.getD i 0 - vols.getD (i - 1) 0
      · rw [if_pos hgt]
        constructor
        · intro _; omega
        · intro _; rfl
      · rw [if_neg hgt]
        constructor
        · intro hlbl
          exfalso
          by_cases hlt : vols.getD i 0 - vols.getD (i - 1) 0 < 0
          · rw [if_pos hlt] at hlbl; exact absurd hlbl (by decide)
          · rw [if_neg hlt] at hlbl; exact absurd hlbl (by decide)
        · intro hvolt; omega
    · by_cases hgt : (0:ℤ) < vols.getD i 0 - vols.getD (i - 1) 0
      · rw [if_pos hgt]
        constructor
        · intro hlbl; exact absurd hlbl (by decide)
        · intro hvolt; omega
      · rw [if_neg hgt]
        by_cases hlt : vols.getD i 0 - vols.getD (i - 1) 0 < 0
        · rw [if_pos hlt]
          constructor
          · intro _; omega
          · intro _; rfl
        · rw [if_neg hlt]
          constructor
          · intro hlbl; exact absurd hlbl (by decide)
          · intro hvolt; omega
    · intro heq
      rw [if_neg (by omega), if_neg (by omega)]

/-- C2 witness: concrete volumes 3, 5, 5, 2. -/
theorem volume_change_label_rule_witness :
    ([3, 5, 5, 2] : List ℤ) ≠ [] ∧
    (volumeChangeLabels [3, 5, 5, 2]).getD 0 "" = Undefined ∧
    ((volumeChangeLabels [3, 5, 5, 2]).getD 1 "" = Increase ↔
      (([3, 5, 5, 2] : List ℤ).getD 0 0 < ([3, 5, 5, 2] : List ℤ).getD 1 0)) ∧
    ((volumeChangeLabels [3, 5, 5, 2]).getD 3 "" = Decrease ↔
      (([3, 5, 5, 2] : List ℤ).getD 3 0 < ([3, 5, 5, 2] : List ℤ).getD 2 0)) ∧
    (([3, 5, 5, 2] : List ℤ).getD 2 0 = ([3, 5, 5, 2] : List ℤ).getD 1 0 →
      (volumeChangeLabels [3, 5, 5, 2]).getD 2 "" = Undefined) :=
  ⟨by decide, (volume_change_label_rule [3, 5, 5, 2] (by decide)).1,
    ((volume_change_label_rule [3, 5, 5, 2] (by decide)).2 1 (by decide)
      (by decide)).1,
    ((volume_change_label_rule [3, 5, 5, 2] (by decide)).2 3 (by decide)
      (by decide)).2.1,
    ((volume_change_label_rule [3, 5, 5, 2] (by decide)).2 2 (by decide)
      (by decide)).2.2⟩

/-- C7: every label `classify` produces is one of the three allowed strings,
so the post-hoc check of `volume_change` always passes: its
`InvalidClassificationError` branch is unreachable. -/
theorem volume_change_check_unreachable (vols : List ℤ) :
    labelCheck (volumeChangeLabels vols) = .ok () := by
  unfold labelCheck
  rw [if_pos]
  rw [List.all_eq_true]
  intro l hl
  obtain ⟨d, -, rfl⟩ := List.mem_map.1 hl
  cases d with
  | none => decide
  | some x =>
    simp only [classify]
    by_cases h1 : x > 0
    · rw [if_pos h1]; decide
    · rw [if_neg h1]
      by_cases h2 : x < 0
      · rw [if_pos h2]; decide
      · rw [if_neg h2]; decide

/-- A key lookup succeeds exactly when the key occurs among the dates. -/
theorem lookupKey_mem {α : Type} [DecidableEq α] (r : List (α × ℚ)) (d : α) :
    (∃ q, lookupKey r d = some q) ↔ d ∈ r.map Prod.fst := by
  unfold lookupKey
  constructor
  · rintro ⟨q, hq⟩
    cases hfind : r.find? (fun p => decide (p.1 = d)) with
    | none => rw [hfind] at hq; cases hq
    | some p =>
      have hmem := List.mem_of_find?_eq_some hfind
      have hpd : p.1 = d := by
        have hfp := List.find?_some hfind
        simpa using hfp
      exact List.mem_map.2 ⟨p, hmem, hpd⟩
  · intro hd
    obtain ⟨p, hp, rfl⟩ := List.mem_map.1 hd
    have hsome : (r.find? (fun q => decide (q.1 = p.1))).isSome :=
      List.find?_isSome.2 ⟨p, hp, by simp⟩
    cases hfind : r.find? (fun q => decide (q.1 = p.1)) with
    | none => rw [hfind] at hsome; cases hsome
    | some q => exact ⟨q.2, rfl⟩

/-- C3: a date appears in the merged profit table iff it appears in both
input series; in particular stock dates `{1, 2, 3}` joined with benchmark
dates `{2, 3, 4}` give exactly `{2, 3}` (dates missing from either side are
dropped). -/
theorem profit_viz_join_drops_unshared :
    (∀ (l r : List (ℕ × ℚ)) (d : ℕ),
        d ∈ (mergeInner l r).map (fun row => row.1) ↔
          d ∈ l.map Prod.fst ∧ d ∈ r.map Prod.fst) ∧
    (mergeInner [(1, (10 : ℚ)), (2, 20), (3, 30)]
        [(2, (5 : ℚ)), (3, 6), (4, 7)]).map (fun row => row.1) = [2, 3] := by
  constructor
  · intro l r d
    induction l with
    | nil => simp [mergeInner]
    | cons p l ih =>
      cases hq : lookupKey r p.1 with
      | some q =>
        have hp1 : p.1 ∈ r.map Prod.fst := (lookupKey_mem r p.1).1 ⟨q, hq⟩
        simp only [mergeInner, hq, List.map_cons, List.mem_cons, ih]
        constructor
        · rintro (rfl | ⟨hl, hr⟩)
          · exact ⟨Or.inl rfl, hp1⟩
          · exact ⟨Or.inr hl, hr⟩
        · rintro ⟨rfl | hl, hr⟩
          · exact Or.inl rfl
          · exact Or.inr ⟨hl, hr⟩
      | none =>
        have hp1 : p.1 ∉ r.map Prod.fst := by
          intro hmem
          obtain ⟨q, hq2⟩ := (lookupKey_mem r p.1).2 hmem
          rw [hq] at hq2; cases hq2
        simp only [mergeInner, hq, List.map_cons, List.mem_cons, ih]
        constructor
        · rintro ⟨hl, hr⟩
          exact ⟨Or.inr hl, hr⟩
        · rintro ⟨rfl | hl, hr⟩
          · exact absurd hr hp1
          · exact ⟨hl, hr⟩
  · decide

/-- C4 counterexample: date 1 is present in the stock series but absent from
the merged table, so the table is not the outer join of the two series. -/
theorem profit_viz_join_not_outer :
    (1 : ℕ) ∈ ([((1 : ℕ), (5 : ℚ)), (2, 7)].map Prod.fst) ∧
    (1 : ℕ) ∉ (mergeInner [((1 : ℕ), (5 : ℚ)), (2, 7)]
      [((2 : ℕ), (3 : ℚ)), (3, 4)]).map (fun row => row.1) := by
  decide

/-- C4 amended: the profit table is the INNER join on Date — its dates are
exactly the stock-series dates that also occur in the benchmark series, in
stock order (the merge drops dates missing from either side; the two value
columns are renamed to distinguish stock and benchmark). -/
theorem profit_viz_join_is_inner (l r : List (ℕ × ℚ)) :
    (mergeInner l r).map (fun row => row.1) =
      (l.map Prod.fst).filter (fun d => decide (d ∈ r.map Prod.fst)) := by
  induction l with
  | nil => rfl
  | cons p l ih =>
    cases hq : lookupKey r p.1 with
    | some q =>
      have hp1 : p.1 ∈ r.map Prod.fst := (lookupKey_mem r p.1).1 ⟨q, hq⟩
      simp only [mergeInner, hq, List.map_cons, List.filter_cons]
      rw [if_pos (by simpa using hp1), ih]
    | none =>
      have hp1 : p.1 ∉ r.map Prod.fst := by
        intro hmem
        obtain ⟨q, hq2⟩ := (lookupKey_mem r p.1).2 hmem
        rw [hq] at hq2; cases hq2
      simp only [mergeInner, hq, List.map_cons, List.filter_cons]
      rw [if_neg (by simpa using hp1), ih]

/-- Once every validation of `percent_change` has passed, the run downloads
the data and can only return the rebased frame or the empty-table
`IndexError`; its trace is the lookup followed by the download. -/
theorem percent_change_after_validation (info : TickerArg → Option ℚ)
    (fetch : TickerArg → YMD → YMD → Frame) (t : TickerArg) (sd ed : String)
    (p : ℚ) (s e : YMD) (ht : info t = some p)
    (hs : parseYMD sd.data = some s) (he : parseYMD ed.data = some e)
    (hlt : dateLt e s = false) :
    ((percent_change info fetch t sd ed).1 = .error .indexError ∨
      ∃ res, (percent_change info fetch t sd ed).1 = .ok res) ∧
    (percent_change info fetch t sd ed).2 = [.lookup t, .download t] := by
  unfold percent_change
  simp only [ht, hs, he, hlt, Bool.false_eq_true, if_false]
  cases hR : rebaseAll (fetch t s e) with
  | none => exact ⟨Or.inl rfl, rfl⟩
  | some r => exact ⟨Or.inr ⟨r, rfl⟩, rfl⟩

/-- When `percent_change` raises a validation error, its provider trace holds
no download. -/
theorem percent_change_no_download (info : TickerArg → Option ℚ)
    (fetch : TickerArg → YMD → YMD → Frame) (t : TickerArg) (sd ed : String)
    (e : Err) (h : (percent_change info fetch t sd ed).1 = .error e)
    (hv : e.isValidation = true) :
    (percent_change info fetch t sd ed).2.filter Ev.isDownload = [] := by
  unfold percent_change at h ⊢
  cases hI : info t with
  | none => simp [hI, Ev.isDownload]
  | some p =>
    simp only [hI] at h ⊢
    cases hS : parseYMD sd.data with
    | none => simp [hS, Ev.isDownload]
    | some s =>
      simp only [hS] at h ⊢
      cases hE : parseYMD ed.data with
      | none => simp [hE, Ev.isDownload]
      | some ee =>
        simp only [hE] at h ⊢
        cases hLt : dateLt ee s with
        | true => simp [hLt, Ev.isDownload]
        | false =>
          simp only [hLt, Bool.false_eq_true, if_false] at h ⊢
          cases hR : rebaseAll (fetch t s ee) with
          | none =>
            simp only [hR, Except.error.injEq] at h
            rw [← h] at hv
            simp [Err.isValidation] at hv
          | some r => simp [hR] at h

/-- When `volume_change` raises a validation error, its provider trace holds
no download. -/
theorem volume_change_no_download (info : TickerArg → Option ℚ)
    (fetchVol : TickerArg → YMD → YMD → List ℤ) (t : TickerArg)
    (sd ed : String) (e : Err)
    (h : (volume_change info fetchVol t sd ed).1 = .error e)
    (hv : e.isValidation = true) :
    (volume_change info fetchVol t sd ed).2.filter Ev.isDownload = [] := by
  unfold volume_change at h ⊢
  cases hI : info t with
  | none => simp [hI, Ev.isDownload]
  | some p =>
    simp only [hI] at h ⊢
    cases hS : parseYMD sd.data with
    | none => simp [hS, Ev.isDownload]
    | some s =>
      simp only [hS] at h ⊢
      cases hE : parseYMD ed.data with
      | none => simp [hE, Ev.isDownload]
      | some ee =>
        simp only [hE] at h ⊢
        cases hC : labelCheck (volumeChangeLabels (fetchVol t s ee)) with
        | error err =>
          simp only [hC, Except.error.injEq] at h
          have herr : err = Err.invalidClassification := by
            unfold labelCheck at hC
            by_cases hall : ((volumeChangeLabels (fetchVol t s ee)).all
                (fun l => l == Decrease || l == Increase || l == Undefined)) = true
            · rw [if_pos hall] at hC; cases hC
            · rw [if_neg hall] at hC
              exact (Except.error.inj hC).symm
          rw [← h, herr] at hv
          simp [Err.isValidation] at hv
        | ok u => simp [hC] at h

/-- When `profit_viz` raises a validation error, its provider trace holds no
download: the inner `percent_change` calls only run after every validation
has already passed, and then cannot raise a validation error themselves. -/
theorem profit_viz_no_download (info : TickerArg → Option ℚ)
    (fetch : TickerArg → YMD → YMD → Frame) (stock : TickerArg)
    (sd ed : String) (bench : TickerArg) (e : Err)
    (h : (profit_viz info fetch stock sd ed bench).1 = .error e)
    (hv : e.isValidation = true) :
    (profit_viz info fetch stock sd ed bench).2.filter Ev.isDownload = [] := by
  unfold profit_viz at h ⊢
  cases hIs : info stock with
  | none => simp [hIs, Ev.isDownload]
  | some ps =>
    simp only [hIs] at h ⊢
    cases hSt : stock.isStr with
    | false => simp [hSt, Ev.isDownload]
    | true =>
      simp only [hSt, Bool.true_eq_false, if_false] at h ⊢
      cases hIb : info bench with
      | none => simp [hIb, Ev.isDownload]
      | some pb =>
        simp only [hIb] at h ⊢
        cases hBt : bench.isStr with
        | false => simp [hBt, Ev.isDownload]
        | true =>
          simp only [hBt, Bool.true_eq_false, if_false] at h ⊢
          cases hS : parseYMD sd.data with
          | none => simp [hS, Ev.isDownload]
          | some s =>
            simp only [hS] at h ⊢
            cases hE : parseYMD ed.data with
            | none => simp [hE, Ev.isDownload]
            | some ee =>
              simp only [hE] at h ⊢
              cases hLt : dateLt ee s with
              | true => simp [hLt, Ev.isDownload]
              | false =>
                simp only [hLt, Bool.false_eq_true, if_false] at h ⊢
                obtain ⟨hres, -⟩ := percent_change_after_validation info fetch
                  stock sd ed ps s ee hIs hS hE hLt
                rcases hres with hie | ⟨sp, hok⟩
                · simp only [hie, Except.error.injEq] at h
                  rw [← h] at hv
                  simp [Err.isValidation] at hv
                · simp only [hok] at h
                  obtain ⟨hres2, -⟩ := percent_change_after_validation info
                    fetch bench sd ed pb s ee hIb hS hE hLt
                  rcases hres2 with hie2 | ⟨bp, hok2⟩
                  · simp only [hie2, Except.error.injEq] at h
                    rw [← h] at hv
                    simp [Err.isValidation] at hv
                  · simp only [hok2] at h
                    simp at h

/-- C6 counterexample: with a resolving ticker and a malformed start date,
`percent_change` raises the date-format validation error, but the ticker
lookup — a network call to the market-data provider — has already been made
when the error is raised: the provider trace at the raise is the lookup, not
the empty trace the claim requires. -/
theorem validation_error_after_lookup_cex :
    (percent_change infoSome fetchTest (.str "AAPL") "01-01-2020" "2020-02-01").1
      = .error .invalidDateFormat ∧
    (percent_change infoSome fetchTest (.str "AAPL") "01-01-2020" "2020-02-01").2
      = [.lookup (.str "AAPL")] :=
  ⟨rfl, rfl⟩

/-- C6 amended: for each of `percent_change`, `volume_change` and
`profit_viz`, a validation failure is raised before the historical-data
DOWNLOAD: the provider trace at the raise holds no download event. (The
ticker-existence lookup is itself a provider network call and precedes the
date checks, so the claim's stronger reading — before ANY network call —
fails.) -/
theorem validation_error_before_download :
    (∀ (info : TickerArg → Option ℚ) (fetch : TickerArg → YMD → YMD → Frame)
        (t : TickerArg) (sd ed : String) (e : Err),
        (percent_change info fetch t sd ed).1 = .error e →
        e.isValidation = true →
        (percent_change info fetch t sd ed).2.filter Ev.isDownload = []) ∧
    (∀ (info : TickerArg → Option ℚ) (fetchVol : TickerArg → YMD → YMD → List ℤ)
        (t : TickerArg) (sd ed : String) (e : Err),
        (volume_change info fetchVol t sd ed).1 = .error e →
        e.isValidation = true →
        (volume_change info fetchVol t sd ed).2.filter Ev.isDownload = []) ∧
    (∀ (info : TickerArg → Option ℚ) (fetch : TickerArg → YMD → YMD → Frame)
        (stock : TickerArg) (sd ed : String) (bench : TickerArg) (e : Err),
        (profit_viz info fetch stock sd ed bench).1 = .error e →
        e.isValidation = true →
        (profit_viz info fetch stock sd ed bench).2.filter Ev.isDownload = []) :=
  ⟨fun info fetch t sd ed e h hv =>
      percent_change_no_download info fetch t sd ed e h hv,
    fun info fetchVol t sd ed e h hv =>
      volume_change_no_download info fetchVol t sd ed e h hv,
    fun info fetch stock sd ed bench e h hv =>
      profit_viz_no_download info fetch stock sd ed bench e h hv⟩

/-- C6 witness: a failed ticker validation in `percent_change` leaves a trace
with no download. -/
theorem validation_error_before_download_witness :
    (percent_change infoNone fetchTest (.str "ZZZZINVALID") "2020-01-01"
        "2020-01-10").1 = .error .invalidTicker ∧
    Err.invalidTicker.isValidation = true ∧
    (percent_change infoNone fetchTest (.str "ZZZZINVALID") "2020-01-01"
        "2020-01-10").2.filter Ev.isDownload = [] :=
  ⟨rfl, rfl,
    validation_error_before_download.1 infoNone fetchTest (.str "ZZZZINVALID")
      "2020-01-01" "2020-01-10" .invalidTicker rfl rfl⟩

/-- C8 counterexample: a non-string stock ticker whose market lookup reports
no price makes `profit_viz` fail with the invalid-ticker error, not the
invalid-input-type error, because the code checks ticker resolution before
the type of the argument. -/
theorem profit_viz_nonstring_cex :
    (profit_viz infoNone fetchTest .nonstr "2020-01-01" "2020-01-02"
        (.str "SPY")).1 = .error .invalidTicker ∧
    (profit_viz infoNone fetchTest .nonstr "2020-01-01" "2020-01-02"
        (.str "SPY")).1 ≠ .error .invalidInputType :=
  ⟨rfl, fun hc => by
    have h1 : (profit_viz infoNone fetchTest .nonstr "2020-01-01" "2020-01-02"
        (.str "SPY")).1 = .error .invalidTicker := rfl
    rw [h1] at hc
    injection hc with h2
    cases h2⟩

/-- C8 amended: `profit_viz` fails with the invalid-input-type error for a
non-string ticker argument PROVIDED the preceding ticker-resolution check
passes for it (the provider lookup returns a price); when the lookup returns
no price, the invalid-ticker error is raised first instead. -/
theorem profit_viz_type_error_when_resolving (info : TickerArg → Option ℚ)
    (fetch : TickerArg → YMD → YMD → Frame) (stock bench : TickerArg)
    (sd ed : String) :
    ((info stock).isSome = true → stock.isStr = false →
      (profit_viz info fetch stock sd ed bench).1 = .error .invalidInputType) ∧
    ((info stock).isSome = true → stock.isStr = true →
      (info bench).isSome = true → bench.isStr = false →
      (profit_viz info fetch stock sd ed bench).1 = .error .invalidInputType) := by
  constructor
  · intro h1 h2
    obtain ⟨p, hp⟩ := Option.isSome_iff_exists.1 h1
    simp [profit_viz, hp, h2]
  · intro h1 h2 h3 h4
    obtain ⟨p, hp⟩ := Option.isSome_iff_exists.1 h1
    obtain ⟨q, hq⟩ := Option.isSome_iff_exists.1 h3
    simp [profit_viz, hp, hq, h2, h4]

/-- C8 witness: a non-string stock ticker that does resolve fails with the
invalid-input-type error. -/
theorem profit_viz_type_error_when_resolving_witness :
    (infoSome TickerArg.nonstr).isSome = true ∧
    TickerArg.nonstr.isStr = false ∧
    (profit_viz infoSome fetchTest .nonstr "2020-01-01" "2020-01-02"
        (.str "SPY")).1 = .error .invalidInputType :=
  ⟨rfl, rfl,
    (profit_viz_type_error_when_resolving infoSome fetchTest .nonstr
      (.str "SPY") "2020-01-01" "2020-01-02").1 rfl rfl⟩

/-- C9: for a resolving ticker and dates that both parse, `percent_change`
raises the date-range error exactly when the end date precedes the start
date; in particular equal dates raise no range error. -/
theorem percent_change_range_check (info : TickerArg → Option ℚ)
    (fetch : TickerArg → YMD → YMD → Frame) (t : TickerArg) (sd ed : String)
    (p : ℚ) (s e : YMD) (ht : info t = some p)
    (hs : parseYMD sd.data = some s) (he : parseYMD ed.data = some e) :
    ((percent_change info fetch t sd ed).1 = .error .invalidDateRange ↔
      dateLt e s = true) := by
  unfold percent_change
  simp only [ht, hs, he]
  cases hLt : dateLt e s with
  | true => simp [hLt]
  | false =>
    simp only [hLt, Bool.false_eq_true, if_false]
    cases hR : rebaseAll (fetch t s e) with
    | none => simp [hR]
    | some r => simp [hR]

/-- C9 witness: equal start and end dates raise no range error. -/
theorem percent_change_range_check_witness :
    infoSome (.str "AAPL") = some 1 ∧
    parseYMD ("2020-01-01" : String).data = some (2020, 1, 1) ∧
    ((percent_change infoSome fetchTest (.str "AAPL") "2020-01-01"
        "2020-01-01").1 = .error .invalidDateRange ↔
      dateLt (2020, 1, 1) (2020, 1, 1) = true) ∧
    dateLt (2020, 1, 1) (2020, 1, 1) = false :=
  ⟨rfl, by decide,
    percent_change_range_check infoSome fetchTest (.str "AAPL") "2020-01-01"
      "2020-01-01" 1 (2020, 1, 1) (2020, 1, 1) rfl (by decide) (by decide),
    by decide⟩
